import Mathlib

/-!
Verification of `kklc-sentences.py`: a script that, for each word in a fixed
five-word list, builds a Wordnik API URL, performs a blocking HTTP GET, parses
the JSON response, prints each definition's `text` field, prints a separator
line and sleeps one second before the next word.

The script is embedded shallowly: the observable behaviour of a run is a trace
of events (HTTP GET issued, line printed to stdout, sleep).  The remote
service's answer is an oracle `String → Response`.  Machine-level details that
the claims do not touch (exact exception message text of the HTTP library) are
carried as opaque strings supplied by small modelling functions.
-/

set_option autoImplicit false

namespace KKLC

/-- JSON values as produced by the Python `json` layer: `null`/`None`,
booleans, numbers, strings, arrays (lists) and objects (dicts). -/
inductive Json where
  | null
  | bool (b : Bool)
  | num (n : Int)
  | str (s : String)
  | arr (elems : List Json)
  | obj (fields : List (String × Json))

/-- Python truthiness of a parsed JSON value: this is the test performed by
line 22 of the source, `if data:`.  `None`, `False`, `0`, `""`, `[]` and
an empty dict are falsy; everything else is truthy. -/
def truthy : Json → Bool
  | .null => false
  | .bool b => b
  | .num n => n != 0
  | .str s => !s.isEmpty
  | .arr es => !es.isEmpty
  | .obj fs => !fs.isEmpty

/-- The exceptions that can arise in the body of the `try` on lines 16-27.
`requestException` covers everything `requests.exceptions.RequestException`
covers (connection failures from `requests.get`, HTTP-status errors from
`raise_for_status`); `jsonDecodeError` is the parse error of `response.json()`
on a malformed body, `keyError` a failed dict lookup, `typeError` an illegal
iteration or subscript. -/
inductive Exc where
  | requestException (msg : String)
  | jsonDecodeError (msg : String)
  | keyError (key : String)
  | typeError (msg : String)
  deriving DecidableEq

/-- The body of an HTTP response: either text that parses as JSON, or
malformed text on which `response.json()` raises a parse error. -/
inductive Body where
  | jsonBody (data : Json)
  | malformed (msg : String)

/-- What `requests.get` comes back with for one request: a network-layer
failure (DNS, connection, timeout: `requests.get` itself raises a
`RequestException` carrying `msg`), or an HTTP response with a status code
and a body. -/
inductive Response where
  | netError (msg : String)
  | httpResponse (status : Nat) (body : Body)

/-- Line 6 of the source. -/
def API_KEY : String := "YOUR_API_KEY"

/-- Line 7 of the source. -/
def BASE_URL : String := "https://api.wordnik.com/v4/word.json/"

/-- Line 10 of the source: the fixed five-word list. -/
def words : List String := ["食べる", "食", "食事", "食堂", "食欲"]

/-- Line 14 of the source: the f-string
`f"{BASE_URL}{word}/definitions?api_key={API_KEY}"`.  The word is embedded
verbatim; the source applies no URL-escaping. -/
def buildUrl (word : String) : String :=
  BASE_URL ++ word ++ "/definitions?api_key=" ++ API_KEY

/-- Python subscript `v["text"]` on a parsed JSON value (line 25,
`definition["text"]`): on a dict, look the key up and raise `KeyError` when
absent; on any non-dict value a string subscript raises `TypeError`. -/
def pySubscript (v : Json) (key : String) : Except Exc Json :=
  match v with
  | .obj fs =>
    match fs.lookup key with
    | some x => .ok x
    | none => .error (.keyError key)
  | _ => .error (.typeError "value is not subscriptable by a string key")

/-- Python iteration `for definition in data:` (line 24) over a parsed JSON
value: a list yields its elements, a dict its keys, a string its characters;
`None`, booleans and numbers are not iterable and raise `TypeError`. -/
def pyIter (v : Json) : Except Exc (List Json) :=
  match v with
  | .arr es => .ok es
  | .obj fs => .ok (fs.map (fun f => Json.str f.1))
  | .str s => .ok (s.data.map (fun c => Json.str (String.mk [c])))
  | _ => .error (.typeError "value is not iterable")

/-- Comma-and-space separated concatenation, as in Python's rendering of
containers. -/
def commaSep : List String → String
  | [] => ""
  | [x] => x
  | x :: xs => x ++ ", " ++ commaSep xs

mutual

/-- Python `repr` of a parsed JSON value, used by `str` on containers.
String escaping inside `repr` is simplified to plain quoting; no claim
exercises it (every `text` field in the claims is a plain string). -/
def pyRepr : Json → String
  | .null => "None"
  | .bool true => "True"
  | .bool false => "False"
  | .num n => toString n
  | .str s => "\x27" ++ s ++ "\x27"
  | .arr es => "[" ++ commaSep (pyReprList es) ++ "]"
  | .obj fs => "\x7b" ++ commaSep (pyReprFields fs) ++ "\x7d"

/-- `repr` of each element of a Python list. -/
def pyReprList : List Json → List String
  | [] => []
  | e :: es => pyRepr e :: pyReprList es

/-- `repr` of each `key: value` entry of a Python dict. -/
def pyReprFields : List (String × Json) → List String
  | [] => []
  | (k, v) :: fs => ("\x27" ++ k ++ "\x27: " ++ pyRepr v) :: pyReprFields fs

end

/-- Python `str` of a parsed JSON value, as interpolated by the f-string on
line 25: a string renders as itself, everything else via `repr`-like
rendering. -/
def pyStr : Json → String
  | .str s => s
  | .null => "None"
  | .bool b => pyRepr (.bool b)
  | .num n => toString n
  | .arr es => pyRepr (.arr es)
  | .obj fs => pyRepr (.obj fs)

/-- One observable step of the program: an HTTP GET issued to a URL, a line
printed to stdout, or `time.sleep` of a duration in seconds. -/
inductive Event where
  | get (url : String)
  | out (line : String)
  | sleep (seconds : Nat)
  deriving DecidableEq

/-- `statusIsError status` holds exactly when `response.raise_for_status()`
raises `HTTPError`: 4xx and 5xx status codes. -/
def statusIsError (status : Nat) : Bool :=
  400 ≤ status && status < 600

/-- The `str` of the `HTTPError` raised by `raise_for_status`; models the
message format of the `requests` library (status code, error class, URL).
No claim depends on its exact text, only on it being the description printed
by the handler. -/
def statusErrMsg (status : Nat) (url : String) : String :=
  toString status ++
    (if status < 500 then " Client Error for url: " else " Server Error for url: ") ++ url

/-- The loop on lines 24-25: print `"- " ++ str(definition["text"])` for each
element in turn; a failing subscript raises, keeping the lines already
printed. Returns the printed lines and the exception, if any. -/
def bulletLines : List Json → List String × Option Exc
  | [] => ([], none)
  | d :: rest =>
    match pySubscript d "text" with
    | .error e => ([], some e)
    | .ok v =>
      let r := bulletLines rest
      (("- " ++ pyStr v) :: r.1, r.2)

/-- The body of the `try` on lines 16-27, given the response the remote
service produces for this word: the lines it prints, and the exception that
escapes it, if any.  `requests.get` raises on a network failure,
`raise_for_status` on a 4xx/5xx status, `response.json()` on a malformed
body; otherwise the parsed value is tested for truthiness and either the
header plus bullet lines or the no-definitions message is printed. -/
def tryBody (word : String) (resp : Response) : List String × Option Exc :=
  match resp with
  | .netError msg => ([], some (.requestException msg))
  | .httpResponse status body =>
    if statusIsError status then
      ([], some (.requestException (statusErrMsg status (buildUrl word))))
    else
      match body with
      | .malformed msg => ([], some (.jsonDecodeError msg))
      | .jsonBody data =>
        if truthy data then
          match pyIter data with
          | .error e => (["Definitions for " ++ word ++ ":"], some e)
          | .ok elems =>
            let r := bulletLines elems
            (("Definitions for " ++ word ++ ":") :: r.1, r.2)
        else
          (["No definitions found for " ++ word ++ "."], none)

/-- Lines 13-29, `fetch_word_data`: issue the GET (the first event), run the
`try` body, and handle the exception: the `except` clause on line 28 catches
exactly `requests.exceptions.RequestException`, printing the error line of
line 29; any other exception propagates to the caller.  Returns the events of
this call and the uncaught exception, if any. -/
def fetch_word_data (word : String) (resp : Response) : List Event × Option Exc :=
  match tryBody word resp with
  | (lines, some (Exc.requestException m)) =>
    (Event.get (buildUrl word) ::
      (lines ++ ["Error during API request for " ++ word ++ ": " ++ m]).map Event.out, none)
  | (lines, e) =>
    (Event.get (buildUrl word) :: lines.map Event.out, e)

/-- Line 35: `"=" * 50`, the separator. -/
def sep : String := String.mk (List.replicate 50 '=')

/-- Lines 32-36, the main loop: for each word print the fetching banner
(`print` of an f-string ending in `\n` produces the banner line and a blank
line), call `fetch_word_data`, print the separator and sleep one second.  An
exception uncaught by `fetch_word_data` terminates the program: the trace
stops and the remaining words produce no events. -/
def runWords (resp : String → Response) : List String → List Event
  | [] => []
  | w :: ws =>
    match fetch_word_data w (resp w) with
    | (evs, some _) =>
      Event.out ("Fetching data for " ++ w ++ "...") :: Event.out "" :: evs
    | (evs, none) =>
      Event.out ("Fetching data for " ++ w ++ "...") :: Event.out "" ::
        (evs ++ [Event.out sep, Event.sleep 1] ++ runWords resp ws)

/-- The whole program: run the main loop over the fixed word list. -/
def runProgram (resp : String → Response) : List Event :=
  runWords resp words

/-- The URLs of the GET requests a trace issues, in order. -/
def requestsOf (t : List Event) : List String :=
  t.filterMap fun e => match e with | .get u => some u | _ => none

/-- The lines a trace prints to stdout, in order. -/
def outputs (t : List Event) : List String :=
  t.filterMap fun e => match e with | .out s => some s | _ => none

/-! ### URL escaping, from the spec's words

The spec's wire contract says the word is embedded "URL-escaped".  The source
(line 14) embeds the word verbatim in an f-string.  To compare the two, the
standard percent-encoding is defined here from the spec's words (RFC 3986:
unreserved characters pass through, every other character is encoded as `%XX`
per UTF-8 byte). -/

/-- RFC 3986 unreserved characters: ASCII letters, digits, `-`, `.`, `_`, `~`. -/
def isUnreserved (c : Char) : Bool :=
  c.isAlphanum || c = '-' || c = '.' || c = '_' || c = '~'

/-- Upper-case hexadecimal digit for a value below 16. -/
def hexDigit (n : Nat) : Char :=
  if n < 10 then Char.ofNat (48 + n) else Char.ofNat (55 + n)

/-- The UTF-8 encoding of a character, as a list of byte values. -/
def utf8Bytes (c : Char) : List Nat :=
  let n := c.toNat
  if n < 128 then [n]
  else if n < 2048 then
    [192 + n / 64, 128 + n % 64]
  else if n < 65536 then
    [224 + n / 4096, 128 + n / 64 % 64, 128 + n % 64]
  else
    [240 + n / 262144, 128 + n / 4096 % 64, 128 + n / 64 % 64, 128 + n % 64]

/-- Percent-encode one character: unreserved characters pass through, every
other character becomes `%XX` for each of its UTF-8 bytes. -/
def percentEncodeChar (c : Char) : List Char :=
  if isUnreserved c then [c]
  else (utf8Bytes c).flatMap (fun b => ['%', hexDigit (b / 16), hexDigit (b % 16)])

/-- Modelled from the spec: URL-escaping of the word, absent from the source.
Percent-encodes every character of the string. -/
def urlEscape (s : String) : String :=
  String.mk (s.data.flatMap percentEncodeChar)

/-- Modelled from the spec: the URL the spec's wire contract describes, with
the word URL-escaped.  To be compared with `buildUrl`, the URL the source
builds. -/
def buildUrlSpec (word : String) : String :=
  BASE_URL ++ urlEscape word ++ "/definitions?api_key=" ++ API_KEY

/-! ### Helper lemmas -/

/-- 2xx status codes do not trip `raise_for_status`. -/
lemma statusIsError_of_2xx (st : Nat) (h1 : 200 ≤ st) (h2 : st < 300) :
    statusIsError st = false := by
  simp only [statusIsError, Bool.and_eq_false_iff, decide_eq_false_iff_not]
  omega

/-- When every record's `text` subscript succeeds with the matching string,
the bullet loop prints one bullet per record, in order, and raises nothing. -/
lemma bulletLines_ok (recs : List Json) (texts : List String)
    (h : recs.map (fun d => pySubscript d "text") =
      texts.map (fun t => Except.ok (Json.str t))) :
    bulletLines recs = (texts.map (fun t => "- " ++ t), none) := by
  induction recs generalizing texts with
  | nil =>
    cases texts with
    | nil => rfl
    | cons t ts => simp at h
  | cons d rest ih =>
    cases texts with
    | nil => simp at h
    | cons t ts =>
      simp only [List.map_cons, List.cons.injEq] at h
      obtain ⟨h1, h2⟩ := h
      simp only [bulletLines, h1, ih ts h2]
      rfl

/-- When the records before position `k` have string `text` fields and the
record at `k` has none, the bullet loop prints the first `k` bullets and then
raises `KeyError`. -/
lemma bulletLines_keyError (good : List Json) (texts : List String) (bad : Json)
    (rest : List Json)
    (hgood : good.map (fun d => pySubscript d "text") =
      texts.map (fun t => Except.ok (Json.str t)))
    (hbad : pySubscript bad "text" = .error (.keyError "text")) :
    bulletLines (good ++ bad :: rest) =
      (texts.map (fun t => "- " ++ t), some (.keyError "text")) := by
  induction good generalizing texts with
  | nil =>
    cases texts with
    | nil => simp only [List.nil_append, bulletLines, hbad, List.map_nil]
    | cons t ts => simp at hgood
  | cons d ds ih =>
    cases texts with
    | nil => simp at hgood
    | cons t ts =>
      simp only [List.map_cons, List.cons.injEq] at hgood
      obtain ⟨h1, h2⟩ := hgood
      simp only [List.cons_append, bulletLines, h1, List.append_eq, ih ts h2]
      rfl

/-- Every line the bullet loop prints starts with a dash. -/
lemma bulletLines_head (es : List Json) :
    ∀ l ∈ (bulletLines es).1, l.data.head? = some '-' := by
  induction es with
  | nil => intro l hl; simp [bulletLines] at hl
  | cons d rest ih =>
    intro l hl
    simp only [bulletLines] at hl
    cases hs : pySubscript d "text" with
    | error e => rw [hs] at hl; simp at hl
    | ok v =>
      rw [hs] at hl
      simp only [List.mem_cons] at hl
      rcases hl with rfl | hl
      · rfl
      · exact ih l hl

/-- `fetch_word_data` on a network-layer failure: the GET is attempted, the
`except` clause prints the error line naming the word and the message, and
nothing escapes. -/
lemma fetch_netError (w m : String) :
    fetch_word_data w (.netError m) =
      ([Event.get (buildUrl w),
        Event.out ("Error during API request for " ++ w ++ ": " ++ m)], none) := rfl

/-- `fetch_word_data` on a 4xx/5xx status: `raise_for_status` raises, the
`except` clause prints the error line, and nothing escapes. -/
lemma fetch_statusError (w : String) (st : Nat) (b : Body) (h : statusIsError st = true) :
    fetch_word_data w (.httpResponse st b) =
      ([Event.get (buildUrl w),
        Event.out ("Error during API request for " ++ w ++ ": " ++
          statusErrMsg st (buildUrl w))], none) := by
  simp [fetch_word_data, tryBody, h]

/-- `fetch_word_data` on a non-error status with a malformed body: the parse
error of `response.json()` escapes uncaught, and no further line is
printed. -/
lemma fetch_malformed (w : String) (st : Nat) (m : String) (h : statusIsError st = false) :
    fetch_word_data w (.httpResponse st (.malformed m)) =
      ([Event.get (buildUrl w)], some (.jsonDecodeError m)) := by
  simp [fetch_word_data, tryBody, h]

/-- `fetch_word_data` on a non-error status with a falsy parsed body: the
no-definitions message is printed. -/
lemma fetch_falsy (w : String) (st : Nat) (data : Json) (h : statusIsError st = false)
    (hf : truthy data = false) :
    fetch_word_data w (.httpResponse st (.jsonBody data)) =
      ([Event.get (buildUrl w), Event.out ("No definitions found for " ++ w ++ ".")],
        none) := by
  simp [fetch_word_data, tryBody, h, hf]

/-- `fetch_word_data` on a non-error status with a non-empty array of records
whose `text` subscripts all succeed with strings: the header and one bullet
per record are printed, in order, and nothing escapes. -/
lemma fetch_records (w : String) (st : Nat) (recs : List Json) (texts : List String)
    (h : statusIsError st = false) (hne : recs ≠ [])
    (hmap : recs.map (fun d => pySubscript d "text") =
      texts.map (fun t => Except.ok (Json.str t))) :
    fetch_word_data w (.httpResponse st (.jsonBody (.arr recs))) =
      (Event.get (buildUrl w) :: Event.out ("Definitions for " ++ w ++ ":") ::
        texts.map (fun t => Event.out ("- " ++ t)), none) := by
  have ht : truthy (.arr recs) = true := by
    simp [truthy, List.isEmpty_iff, hne]
  simp [fetch_word_data, tryBody, h, ht, pyIter, bulletLines_ok recs texts hmap]

/-- `fetch_word_data` when the record after `good` lacks its `text` field:
the header and the bullets for `good` are printed, then `KeyError`
escapes uncaught. -/
lemma fetch_keyError (w : String) (st : Nat) (good : List Json) (texts : List String)
    (bad : Json) (rest : List Json) (h : statusIsError st = false)
    (hgood : good.map (fun d => pySubscript d "text") =
      texts.map (fun t => Except.ok (Json.str t)))
    (hbad : pySubscript bad "text" = .error (.keyError "text")) :
    fetch_word_data w (.httpResponse st (.jsonBody (.arr (good ++ bad :: rest)))) =
      (Event.get (buildUrl w) :: Event.out ("Definitions for " ++ w ++ ":") ::
        texts.map (fun t => Event.out ("- " ++ t)), some (.keyError "text")) := by
  have ht : truthy (.arr (good ++ bad :: rest)) = true := by
    simp [truthy, List.isEmpty_iff]
  simp [fetch_word_data, tryBody, h, ht, pyIter,
    bulletLines_keyError good texts bad rest hgood hbad]

/-- Unfolding of the main loop when the word's processing completes without
an uncaught exception: separator and sleep follow, then the rest of the
words. -/
lemma runWords_cons_none (resp : String → Response) (w : String) (ws : List String)
    (h : (fetch_word_data w (resp w)).2 = none) :
    runWords resp (w :: ws) =
      Event.out ("Fetching data for " ++ w ++ "...") :: Event.out "" ::
        ((fetch_word_data w (resp w)).1 ++ [Event.out sep, Event.sleep 1] ++
          runWords resp ws) := by
  rcases hf : fetch_word_data w (resp w) with ⟨evs, exc⟩
  rw [hf] at h
  cases h
  simp [runWords, hf]

/-- Unfolding of the main loop when an exception escapes `fetch_word_data`:
the program terminates, no separator, no sleep, no further words. -/
lemma runWords_cons_some (resp : String → Response) (w : String) (ws : List String)
    (e : Exc) (h : (fetch_word_data w (resp w)).2 = some e) :
    runWords resp (w :: ws) =
      Event.out ("Fetching data for " ++ w ++ "...") :: Event.out "" ::
        (fetch_word_data w (resp w)).1 := by
  rcases hf : fetch_word_data w (resp w) with ⟨evs, exc⟩
  rw [hf] at h
  cases h
  simp [runWords, hf]

lemma requestsOf_nil : requestsOf [] = [] := rfl

lemma requestsOf_cons_out (s : String) (t : List Event) :
    requestsOf (Event.out s :: t) = requestsOf t := rfl

lemma requestsOf_cons_get (u : String) (t : List Event) :
    requestsOf (Event.get u :: t) = u :: requestsOf t := rfl

lemma requestsOf_cons_sleep (n : Nat) (t : List Event) :
    requestsOf (Event.sleep n :: t) = requestsOf t := rfl

lemma requestsOf_append (a b : List Event) :
    requestsOf (a ++ b) = requestsOf a ++ requestsOf b :=
  List.filterMap_append a b _

/-- Printed lines issue no requests. -/
lemma requestsOf_map_out (L : List String) : requestsOf (L.map Event.out) = [] := by
  induction L with
  | nil => rfl
  | cons l ls ih => rw [List.map_cons, requestsOf_cons_out, ih]

/-- Each call of `fetch_word_data` issues exactly one GET, to the word's
URL, whatever the response. -/
lemma requestsOf_fetch (w : String) (r : Response) :
    requestsOf (fetch_word_data w r).1 = [buildUrl w] := by
  rcases hf : tryBody w r with ⟨lines, exc⟩
  cases exc with
  | none =>
    simp [fetch_word_data, hf, requestsOf_cons_get, requestsOf_map_out]
  | some e =>
    cases e <;>
      simp [fetch_word_data, hf, requestsOf_cons_get, requestsOf_map_out,
        requestsOf_append, requestsOf_cons_out, requestsOf_nil]

lemma sep_head : sep.data.head? = some '=' := by decide

/-- Every line the `try` body prints starts with the letter of its kind:
`D` for the header, `N` for the no-definitions message, a dash for a
bullet. -/
lemma tryBody_lines_head (w : String) (r : Response) :
    ∀ l ∈ (tryBody w r).1,
      l.data.head? = some 'D' ∨ l.data.head? = some 'N' ∨ l.data.head? = some '-' := by
  intro l hl
  cases r with
  | netError m => simp [tryBody] at hl
  | httpResponse st b =>
    cases h : statusIsError st with
    | true => simp [tryBody, h] at hl
    | false =>
      cases b with
      | malformed m => simp [tryBody, h] at hl
      | jsonBody data =>
        cases ht : truthy data with
        | false =>
          simp [tryBody, h, ht] at hl
          subst hl
          right; left; rfl
        | true =>
          cases hit : pyIter data with
          | error e =>
            simp [tryBody, h, ht, hit] at hl
            subst hl
            left; rfl
          | ok elems =>
            simp [tryBody, h, ht, hit] at hl
            rcases hl with rfl | hl
            · left; rfl
            · right; right; exact bulletLines_head elems l hl

/-- Every line `fetch_word_data` prints starts with `D`, `N`, a dash, or
`E` (the error line of the `except` clause). -/
lemma fetch_lines_head (w : String) (r : Response) :
    ∀ l, Event.out l ∈ (fetch_word_data w r).1 →
      l.data.head? = some 'D' ∨ l.data.head? = some 'N' ∨
        l.data.head? = some '-' ∨ l.data.head? = some 'E' := by
  intro l hl
  rcases hf : tryBody w r with ⟨lines, exc⟩
  have hT := tryBody_lines_head w r
  rw [hf] at hT
  have hmem : l ∈ lines → l.data.head? = some 'D' ∨ l.data.head? = some 'N' ∨
      l.data.head? = some '-' ∨ l.data.head? = some 'E' := by
    intro h
    rcases hT l h with h | h | h
    · exact Or.inl h
    · exact Or.inr (Or.inl h)
    · exact Or.inr (Or.inr (Or.inl h))
  cases exc with
  | none =>
    simp only [fetch_word_data, hf, List.mem_cons, List.mem_map] at hl
    rcases hl with h | ⟨x, hx, hout⟩
    · cases h
    · cases hout
      exact hmem hx
  | some e =>
    cases e with
    | requestException m =>
      simp only [fetch_word_data, hf, List.mem_cons, List.mem_map,
        List.mem_append, List.mem_singleton, List.not_mem_nil, or_false] at hl
      rcases hl with h | ⟨x, hx | hx, hout⟩
      · cases h
      · cases hout
        exact hmem hx
      · cases hout
        subst hx
        right; right; right; rfl
    | jsonDecodeError m =>
      simp only [fetch_word_data, hf, List.mem_cons, List.mem_map] at hl
      rcases hl with h | ⟨x, hx, hout⟩
      · cases h
      · cases hout
        exact hmem hx
    | keyError k =>
      simp only [fetch_word_data, hf, List.mem_cons, List.mem_map] at hl
      rcases hl with h | ⟨x, hx, hout⟩
      · cases h
      · cases hout
        exact hmem hx
    | typeError m =>
      simp only [fetch_word_data, hf, List.mem_cons, List.mem_map] at hl
      rcases hl with h | ⟨x, hx, hout⟩
      · cases h
      · cases hout
        exact hmem hx

/-- No line printed by `fetch_word_data` is the separator line: the
separator printed by the main loop is the only one per word. -/
lemma fetch_not_sep (w : String) (r : Response) :
    Event.out sep ∉ (fetch_word_data w r).1 := by
  intro hmem
  rcases fetch_lines_head w r sep hmem with h | h | h | h <;>
    · rw [sep_head] at h
      exact absurd (Option.some.inj h) (by decide)

/-- When no word's processing raises an uncaught exception, the main loop's
trace is the concatenation, in list order, of one self-contained block per
word. -/
lemma runWords_blocks (resp : String → Response) (ws : List String)
    (h : ∀ w ∈ ws, (fetch_word_data w (resp w)).2 = none) :
    runWords resp ws = ws.flatMap (fun w =>
      Event.out ("Fetching data for " ++ w ++ "...") :: Event.out "" ::
        ((fetch_word_data w (resp w)).1 ++ [Event.out sep, Event.sleep 1])) := by
  induction ws with
  | nil => rfl
  | cons w ws ih =>
    rw [runWords_cons_none resp w ws (h w (List.mem_cons_self w ws)),
      ih (fun x hx => h x (List.mem_cons_of_mem w hx)), List.flatMap_cons]
    simp [List.append_assoc]

/-- When no word's processing raises an uncaught exception, the requests the
main loop issues are exactly one per word, to the word's URL, in list
order. -/
lemma requestsOf_runWords (resp : String → Response) (ws : List String)
    (h : ∀ w ∈ ws, (fetch_word_data w (resp w)).2 = none) :
    requestsOf (runWords resp ws) = ws.map buildUrl := by
  induction ws with
  | nil => rfl
  | cons w ws ih =>
    rw [runWords_cons_none resp w ws (h w (List.mem_cons_self w ws)),
      requestsOf_cons_out, requestsOf_cons_out, requestsOf_append, requestsOf_append,
      requestsOf_fetch, ih (fun x hx => h x (List.mem_cons_of_mem w hx))]
    simp [requestsOf_cons_out, requestsOf_cons_sleep, requestsOf_nil]

/-! ### The claims -/

/-- C1: on any network-layer failure (`requests.get` raises) or
HTTP-status-layer failure (`raise_for_status` raises, i.e. a 4xx/5xx status
such as 404) while processing a word, the program catches the failure and
prints an error message that includes both the word and the underlying error
description; it prints no header line and no bullet lines for that word, and
the batch continues with the remaining words (separator, sleep, then the next
word's events follow unchanged). -/
theorem claim1_request_failure_caught_and_batch_continues
    (w : String) (ws : List String) (resp : String → Response) (msg : String)
    (h : resp w = Response.netError msg ∨
      ∃ st b, resp w = Response.httpResponse st b ∧ statusIsError st = true ∧
        msg = statusErrMsg st (buildUrl w)) :
    runWords resp (w :: ws) =
      Event.out ("Fetching data for " ++ w ++ "...") :: Event.out "" ::
        ([Event.get (buildUrl w),
          Event.out ("Error during API request for " ++ w ++ ": " ++ msg)] ++
          [Event.out sep, Event.sleep 1] ++ runWords resp ws) ∧
    (∃ a b, "Error during API request for " ++ w ++ ": " ++ msg = a ++ w ++ b) ∧
    (∃ a, "Error during API request for " ++ w ++ ": " ++ msg = a ++ msg) := by
  have hfetch : fetch_word_data w (resp w) =
      ([Event.get (buildUrl w),
        Event.out ("Error during API request for " ++ w ++ ": " ++ msg)], none) := by
    rcases h with h | ⟨st, b, h, hst, hmsg⟩
    · rw [h]; exact fetch_netError w msg
    · rw [h, hmsg]; exact fetch_statusError w st b hst
  refine ⟨?_, ⟨"Error during API request for ", ": " ++ msg, ?_⟩,
    ⟨"Error during API request for " ++ w ++ ": ", rfl⟩⟩
  · rw [runWords_cons_none resp w ws (by rw [hfetch]), hfetch]
  · exact String.append_assoc ("Error during API request for " ++ w) ": " msg

/-- Witness for C1: a connection failure on the first of two words. -/
theorem claim1_witness :
    runWords (fun _ => Response.netError "boom") ("a" :: ["b"]) =
      Event.out ("Fetching data for " ++ "a" ++ "...") :: Event.out "" ::
        ([Event.get (buildUrl "a"),
          Event.out ("Error during API request for " ++ "a" ++ ": " ++ "boom")] ++
          [Event.out sep, Event.sleep 1] ++
          runWords (fun _ => Response.netError "boom") ["b"]) ∧
    (∃ a b, "Error during API request for " ++ "a" ++ ": " ++ "boom" = a ++ "a" ++ b) ∧
    (∃ a, "Error during API request for " ++ "a" ++ ": " ++ "boom" = a ++ "boom") :=
  claim1_request_failure_caught_and_batch_continues "a" ["b"]
    (fun _ => Response.netError "boom") "boom" (Or.inl rfl)

/-- C2: over the fixed five-word list, when every word's processing completes
(no uncaught exception), exactly one GET is issued per word, to that word's
URL, in list order; the trace is the concatenation of self-contained per-word
blocks, so each request is fully handled (response received, lines printed,
separator, sleep) before the next word's request is issued; and each word's
`fetch_word_data` call issues exactly its one request. -/
theorem claim2_one_request_per_word_in_order (resp : String → Response)
    (h : ∀ w ∈ words, (fetch_word_data w (resp w)).2 = none) :
    requestsOf (runWords resp words) = words.map buildUrl ∧
    runWords resp words = words.flatMap (fun w =>
      Event.out ("Fetching data for " ++ w ++ "...") :: Event.out "" ::
        ((fetch_word_data w (resp w)).1 ++ [Event.out sep, Event.sleep 1])) ∧
    ∀ w ∈ words, requestsOf (fetch_word_data w (resp w)).1 = [buildUrl w] :=
  ⟨requestsOf_runWords resp words h, runWords_blocks resp words h,
    fun w _ => requestsOf_fetch w (resp w)⟩

/-- Witness for C2: every word of the list answered by a caught connection
failure. -/
theorem claim2_witness :
    requestsOf (runWords (fun _ => Response.netError "x") words) = words.map buildUrl ∧
    runWords (fun _ => Response.netError "x") words = words.flatMap (fun w =>
      Event.out ("Fetching data for " ++ w ++ "...") :: Event.out "" ::
        ((fetch_word_data w ((fun _ => Response.netError "x") w)).1 ++
          [Event.out sep, Event.sleep 1])) ∧
    ∀ w ∈ words,
      requestsOf (fetch_word_data w ((fun _ => Response.netError "x") w)).1 =
        [buildUrl w] :=
  claim2_one_request_per_word_in_order (fun _ => Response.netError "x") (by decide)

/-- C3: on a 2xx response parsing to a non-empty JSON array of records whose
`text` fields are the strings `texts`, the word's output is a header line
naming the word followed by exactly one bullet line per record, the i-th
bullet consisting of the bullet `- ` and the i-th record's text, in response
order; nothing escapes. -/
theorem claim3_success_prints_header_and_bullets
    (word : String) (st : Nat) (recs : List Json) (texts : List String)
    (h2xx : 200 ≤ st ∧ st < 300) (hne : recs ≠ [])
    (hmap : recs.map (fun d => pySubscript d "text") =
      texts.map (fun t => Except.ok (Json.str t))) :
    fetch_word_data word (.httpResponse st (.jsonBody (.arr recs))) =
      (Event.get (buildUrl word) :: Event.out ("Definitions for " ++ word ++ ":") ::
        texts.map (fun t => Event.out ("- " ++ t)), none) ∧
    texts.length = recs.length := by
  refine ⟨fetch_records word st recs texts
    (statusIsError_of_2xx st h2xx.1 h2xx.2) hne hmap, ?_⟩
  have hlen := congrArg List.length hmap
  simpa using hlen.symm

/-- Witness for C3: the two-record apple response. -/
theorem claim3_witness :
    fetch_word_data "apple" (.httpResponse 200 (.jsonBody (.arr
        [.obj [("text", .str "a fruit")], .obj [("text", .str "a company")]]))) =
      (Event.get (buildUrl "apple") :: Event.out ("Definitions for " ++ "apple" ++ ":") ::
        (["a fruit", "a company"].map (fun t => Event.out ("- " ++ t))), none) ∧
    (["a fruit", "a company"] : List String).length =
      ([Json.obj [("text", Json.str "a fruit")],
        Json.obj [("text", Json.str "a company")]] : List Json).length :=
  claim3_success_prints_header_and_bullets "apple" 200
    [Json.obj [("text", Json.str "a fruit")], Json.obj [("text", Json.str "a company")]]
    ["a fruit", "a company"] ⟨by decide, by decide⟩ (by simp) rfl

/-- C4: on a 2xx response parsing to an empty JSON array, the word's output
is exactly the no-definitions message naming the word — no header, no
bullets — and nothing escapes. -/
theorem claim4_empty_array_no_definitions_message
    (word : String) (st : Nat) (h2xx : 200 ≤ st ∧ st < 300) :
    fetch_word_data word (.httpResponse st (.jsonBody (.arr []))) =
      ([Event.get (buildUrl word),
        Event.out ("No definitions found for " ++ word ++ ".")], none) :=
  fetch_falsy word st (.arr []) (statusIsError_of_2xx st h2xx.1 h2xx.2) rfl

/-- Witness for C4: an empty array for the word 食. -/
theorem claim4_witness :
    fetch_word_data "食" (.httpResponse 200 (.jsonBody (.arr []))) =
      ([Event.get (buildUrl "食"),
        Event.out ("No definitions found for " ++ "食" ++ ".")], none) :=
  claim4_empty_array_no_definitions_message "食" 200 ⟨by decide, by decide⟩

/-- C5: after each word whose processing completes — a success, an empty
result or a caught request failure alike — the program prints exactly one
separator line (the 50-character line of `=`) and then sleeps 1 second before
processing the next word; the separator is the only separator line in the
word's block, since no line printed inside `fetch_word_data` is the
separator. -/
theorem claim5_separator_and_sleep_after_each_word
    (w : String) (ws : List String) (resp : String → Response)
    (h : (fetch_word_data w (resp w)).2 = none) :
    runWords resp (w :: ws) =
      Event.out ("Fetching data for " ++ w ++ "...") :: Event.out "" ::
        ((fetch_word_data w (resp w)).1 ++ [Event.out sep, Event.sleep 1] ++
          runWords resp ws) ∧
    sep = String.mk (List.replicate 50 '=') ∧
    Event.out sep ∉ Event.out ("Fetching data for " ++ w ++ "...") :: Event.out "" ::
      (fetch_word_data w (resp w)).1 := by
  refine ⟨runWords_cons_none resp w ws h, rfl, ?_⟩
  intro hmem
  simp only [List.mem_cons] at hmem
  rcases hmem with h1 | h1 | h1
  · have hs := Event.out.inj h1
    have h3 : sep.data.head? = some 'F' := by rw [hs]; exact rfl
    rw [sep_head] at h3
    exact absurd (Option.some.inj h3) (by decide)
  · have hs := Event.out.inj h1
    have h3 : sep.data.head? = (none : Option Char) := by rw [hs]; exact rfl
    rw [sep_head] at h3
    exact Option.noConfusion h3
  · exact fetch_not_sep w (resp w) h1

/-- Witness for C5: a caught connection failure for 食堂, last word of the
batch. -/
theorem claim5_witness :
    runWords (fun _ => Response.netError "x") ("食堂" :: []) =
      Event.out ("Fetching data for " ++ "食堂" ++ "...") :: Event.out "" ::
        ((fetch_word_data "食堂" ((fun _ => Response.netError "x") "食堂")).1 ++
          [Event.out sep, Event.sleep 1] ++
          runWords (fun _ => Response.netError "x") []) ∧
    sep = String.mk (List.replicate 50 '=') ∧
    Event.out sep ∉ Event.out ("Fetching data for " ++ "食堂" ++ "...") :: Event.out "" ::
      (fetch_word_data "食堂" ((fun _ => Response.netError "x") "食堂")).1 :=
  claim5_separator_and_sleep_after_each_word "食堂" [] (fun _ => Response.netError "x") rfl

/-- C6 counterexample: for the first word of the program's own list, the URL
the source builds (and to which `fetch_word_data` issues its GET) embeds the
word verbatim and differs from the URL with the word URL-escaped that the
claim describes: the source performs no URL-escaping. -/
theorem claim6_counterexample :
    requestsOf (fetch_word_data "食べる" (Response.netError "x")).1 =
      [buildUrl "食べる"] ∧
    buildUrl "食べる" ≠ buildUrlSpec "食べる" := by
  constructor
  · exact requestsOf_fetch "食べる" (Response.netError "x")
  · decide

/-- C6 (amended): for every word, the request URL is constructed by embedding
the base endpoint, then the word verbatim (no URL-escaping is applied), then
the path segment `/definitions` and the static API key as query parameter:
the GET issued by `fetch_word_data` is to
`BASE_URL ++ word ++ "/definitions?api_key=" ++ API_KEY`, whatever the
response. -/
theorem claim6_amended_url_embeds_word_verbatim (word : String) (resp : Response) :
    (fetch_word_data word resp).1.head? =
      some (Event.get (BASE_URL ++ word ++ "/definitions?api_key=" ++ API_KEY)) := by
  rcases hf : tryBody word resp with ⟨lines, exc⟩
  cases exc with
  | none => simp [fetch_word_data, hf, buildUrl]
  | some e => cases e <;> simp [fetch_word_data, hf, buildUrl]

/-- C7: a malformed body on a 2xx response surfaces as a parse error of
`response.json()` that the per-word `except` clause does not catch: the
uncaught exception is the parse error (not `none`), no generic request-failed
error line is printed for the word, and the program terminates — the trace
ends right after the GET, with no separator and no further words. -/
theorem claim7_malformed_json_uncaught
    (w : String) (ws : List String) (resp : String → Response)
    (st : Nat) (m : String) (h2xx : 200 ≤ st ∧ st < 300)
    (h : resp w = .httpResponse st (.malformed m)) :
    fetch_word_data w (resp w) = ([Event.get (buildUrl w)], some (.jsonDecodeError m)) ∧
    runWords resp (w :: ws) =
      [Event.out ("Fetching data for " ++ w ++ "..."), Event.out "",
        Event.get (buildUrl w)] := by
  have hfetch : fetch_word_data w (resp w) =
      ([Event.get (buildUrl w)], some (.jsonDecodeError m)) := by
    rw [h]; exact fetch_malformed w st m (statusIsError_of_2xx st h2xx.1 h2xx.2)
  refine ⟨hfetch, ?_⟩
  rw [runWords_cons_some resp w ws _ (by rw [hfetch]), hfetch]

/-- Witness for C7: a malformed 200 response for apple, with another word
still pending. -/
theorem claim7_witness :
    fetch_word_data "apple"
        ((fun _ => Response.httpResponse 200 (Body.malformed "bad")) "apple") =
      ([Event.get (buildUrl "apple")], some (.jsonDecodeError "bad")) ∧
    runWords (fun _ => Response.httpResponse 200 (Body.malformed "bad")) ("apple" :: ["食"]) =
      [Event.out ("Fetching data for " ++ "apple" ++ "..."), Event.out "",
        Event.get (buildUrl "apple")] :=
  claim7_malformed_json_uncaught "apple" ["食"]
    (fun _ => Response.httpResponse 200 (Body.malformed "bad")) 200 "bad"
    ⟨by decide, by decide⟩ rfl

/-- C8: for the input list `["apple"]` with a mocked successful response of
two records, the complete program output is exactly the banner line, a blank
line, the header line, the two bullet lines, and a separator line of 50 `=`
characters. -/
theorem claim8_end_to_end_apple :
    outputs (runWords (fun _ => Response.httpResponse 200 (Body.jsonBody (Json.arr
        [Json.obj [("text", Json.str "a fruit")], Json.obj [("text", Json.str "a company")]])))
      ["apple"]) =
      ["Fetching data for apple...", "", "Definitions for apple:",
        "- a fruit", "- a company", String.mk (List.replicate 50 '=')] := by
  decide

/-- C9: when a 2xx response parses to a non-empty array in which the records
in `good` carry string `text` fields but the next record lacks the field, the
word's header and the bullets for `good` are printed, the `KeyError` escapes
the per-word handler uncaught, and the whole program terminates: the trace is
independent of the remaining words `ws`, which are never processed, and no
separator follows. -/
theorem claim9_missing_text_field_aborts_batch
    (w : String) (ws : List String) (resp : String → Response) (st : Nat)
    (good : List Json) (texts : List String) (bad : Json) (rest : List Json)
    (h2xx : 200 ≤ st ∧ st < 300)
    (hresp : resp w = .httpResponse st (.jsonBody (.arr (good ++ bad :: rest))))
    (hgood : good.map (fun d => pySubscript d "text") =
      texts.map (fun t => Except.ok (Json.str t)))
    (hbad : pySubscript bad "text" = .error (.keyError "text")) :
    runWords resp (w :: ws) =
      Event.out ("Fetching data for " ++ w ++ "...") :: Event.out "" ::
        Event.get (buildUrl w) :: Event.out ("Definitions for " ++ w ++ ":") ::
        texts.map (fun t => Event.out ("- " ++ t)) ∧
    (fetch_word_data w (resp w)).2 = some (.keyError "text") := by
  have hfetch := fetch_keyError w st good texts bad rest
    (statusIsError_of_2xx st h2xx.1 h2xx.2) hgood hbad
  constructor
  · rw [runWords_cons_some resp w ws _ (by rw [hresp, hfetch]), hresp, hfetch]
  · rw [hresp, hfetch]

/-- Witness for C9: a two-record response whose second record has no `text`
field, with a second word pending that is never reached. -/
theorem claim9_witness :
    runWords
        (fun _ => Response.httpResponse 200 (Body.jsonBody (Json.arr
          ([Json.obj [("text", Json.str "x")]] ++
            Json.obj [("other", Json.str "y")] :: []))))
        ("apple" :: ["食"]) =
      Event.out ("Fetching data for " ++ "apple" ++ "...") :: Event.out "" ::
        Event.get (buildUrl "apple") :: Event.out ("Definitions for " ++ "apple" ++ ":") ::
        ["x"].map (fun t => Event.out ("- " ++ t)) ∧
    (fetch_word_data "apple"
        ((fun _ => Response.httpResponse 200 (Body.jsonBody (Json.arr
          ([Json.obj [("text", Json.str "x")]] ++
            Json.obj [("other", Json.str "y")] :: [])))) "apple")).2 =
      some (.keyError "text") :=
  claim9_missing_text_field_aborts_batch "apple" ["食"]
    (fun _ => Response.httpResponse 200 (Body.jsonBody (Json.arr
      ([Json.obj [("text", Json.str "x")]] ++ Json.obj [("other", Json.str "y")] :: []))))
    200 [Json.obj [("text", Json.str "x")]] ["x"] (Json.obj [("other", Json.str "y")]) []
    ⟨by decide, by decide⟩ rfl rfl rfl

/-- C10: the branch between the success output and the no-definitions message
is selected by Python truthiness of the parsed body, not by a check that the
body is an empty array: every falsy parsed body (`null`, `false`, `0`, the
empty string, the empty array, the empty object) produces exactly the
no-definitions message, and every truthy body — array or not — enters the
success branch: the header line is printed and the body is handed to the
iteration with no check that it is an array of records. -/
theorem claim10_truthiness_selects_branch (word : String) (j : Json) :
    (truthy j = false →
      fetch_word_data word (.httpResponse 200 (.jsonBody j)) =
        ([Event.get (buildUrl word),
          Event.out ("No definitions found for " ++ word ++ ".")], none)) ∧
    (truthy j = true →
      ∃ tail exc, fetch_word_data word (.httpResponse 200 (.jsonBody j)) =
        (Event.get (buildUrl word) :: Event.out ("Definitions for " ++ word ++ ":") ::
          tail, exc)) := by
  constructor
  · intro hf
    exact fetch_falsy word 200 j rfl hf
  · intro ht
    have htry : tryBody word (.httpResponse 200 (.jsonBody j)) =
        (match pyIter j with
          | .error e => (["Definitions for " ++ word ++ ":"], some e)
          | .ok elems =>
            (("Definitions for " ++ word ++ ":") :: (bulletLines elems).1,
              (bulletLines elems).2)) := by
      have h200 : statusIsError 200 = false := rfl
      simp [tryBody, h200, ht]
    cases hit : pyIter j with
    | error e =>
      rw [hit] at htry
      dsimp only at htry
      cases e with
      | requestException m =>
        exact ⟨[Event.out ("Error during API request for " ++ word ++ ": " ++ m)], none,
          by simp [fetch_word_data, htry]⟩
      | jsonDecodeError m =>
        exact ⟨[], some (.jsonDecodeError m), by simp [fetch_word_data, htry]⟩
      | keyError k =>
        exact ⟨[], some (.keyError k), by simp [fetch_word_data, htry]⟩
      | typeError m =>
        exact ⟨[], some (.typeError m), by simp [fetch_word_data, htry]⟩
    | ok elems =>
      rw [hit] at htry
      dsimp only at htry
      rcases hb : bulletLines elems with ⟨bl, bexc⟩
      rw [hb] at htry
      cases bexc with
      | none =>
        exact ⟨bl.map Event.out, none, by simp [fetch_word_data, htry]⟩
      | some e =>
        cases e with
        | requestException m =>
          exact ⟨bl.map Event.out ++
              [Event.out ("Error during API request for " ++ word ++ ": " ++ m)], none,
            by simp [fetch_word_data, htry]⟩
        | jsonDecodeError m =>
          exact ⟨bl.map Event.out, some (.jsonDecodeError m),
            by simp [fetch_word_data, htry]⟩
        | keyError k =>
          exact ⟨bl.map Event.out, some (.keyError k),
            by simp [fetch_word_data, htry]⟩
        | typeError m =>
          exact ⟨bl.map Event.out, some (.typeError m),
            by simp [fetch_word_data, htry]⟩

/-- Witness for C10: the falsy body `null` yields the no-definitions
message; the truthy non-array body (a one-entry object) enters the success
branch and prints the header. -/
theorem claim10_witness :
    (fetch_word_data "x" (.httpResponse 200 (.jsonBody Json.null)) =
      ([Event.get (buildUrl "x"),
        Event.out ("No definitions found for " ++ "x" ++ ".")], none)) ∧
    (∃ tail exc,
      fetch_word_data "x" (.httpResponse 200 (.jsonBody (Json.obj [("k", Json.str "v")]))) =
        (Event.get (buildUrl "x") :: Event.out ("Definitions for " ++ "x" ++ ":") ::
          tail, exc)) :=
  ⟨(claim10_truthiness_selects_branch "x" Json.null).1 rfl,
    (claim10_truthiness_selects_branch "x" (Json.obj [("k", Json.str "v")])).2 rfl⟩

end KKLC
